import Mathlib

/-!
Shallow embedding of `src/parse/state/tag.js`, the tag-level state machine of the
template parser, together with minimal models of its external collaborators
(cursor primitives, expression reader, raw-content readers, character-reference
decoder, trimming utilities): the spec declares those out of scope, or they live
in files of the repository that are not under `src/`.

Strings are modelled as `String` / `List Char`; source offsets count characters
(all inputs considered here are ASCII, where JS code-unit indices coincide with
character indices).  The mutable open-element stack of the source, whose entries
alias nodes inside the tree under construction, is modelled as a spine: an open
node's accumulated children live in its stack entry, and popping a node appends
it to the children of the entry below it.  This reproduces the source's aliasing
behaviour, because while a node is open every child append targets the top of
the stack, never an ancestor.
-/

/-- Whitespace per the JS regex class `\s`, restricted to its ASCII members
(the only ones relevant to the inputs considered). -/
def isWS (c : Char) : Bool :=
  c = ' ' || c = '\t' || c = '\n' || c = '\r' || c = Char.ofNat 11 || c = Char.ofNat 12

/-- Modelled from the spec: `trimStart` comes from `src/utils/trim.js`, which is
not under `src/`; §4.4 specifies it as stripping leading whitespace. -/
def trimStart (s : String) : String :=
  String.mk (s.toList.dropWhile (fun c => isWS c))

/-- Modelled from the spec: `trimEnd` comes from `src/utils/trim.js`, which is
not under `src/`; §4.4 specifies it as stripping trailing whitespace. -/
def trimEnd (s : String) : String :=
  String.mk ((s.toList.reverse.dropWhile (fun c => isWS c)).reverse)

/-- The singleton meta-tag registry of `tag.js`:
`const metaTags = { ':Window': true }`. -/
def metaTags : List String := [":Window"]

/-- The self-reference sentinel of `tag.js`: `const SELF = ':Self'`. -/
def SELF : String := ":Self"

/-- Membership in the `specials` map of `tag.js` (keys `script` and `style`). -/
def specialsHas (name : String) : Bool :=
  name = "script" || name = "style"

/-- The `disallowedContents` table of `tag.js`; a missing key yields `[]`,
making the combined `has`-then-`get`-`has` lookup a plain membership test. -/
def disallowedContents (name : String) : List String :=
  if name = "li" then ["li"]
  else if name = "dt" then ["dt", "dd"]
  else if name = "dd" then ["dt", "dd"]
  else if name = "p" then
    ["address", "article", "aside", "blockquote", "div", "dl", "fieldset",
     "footer", "form", "h1", "h2", "h3", "h4", "h5", "h6", "header", "hgroup",
     "hr", "main", "menu", "nav", "ol", "p", "pre", "section", "table", "ul"]
  else if name = "rt" then ["rt", "rp"]
  else if name = "rp" then ["rt", "rp"]
  else if name = "optgroup" then ["optgroup"]
  else if name = "option" then ["option", "optgroup"]
  else if name = "thead" then ["tbody", "tfoot"]
  else if name = "tbody" then ["tbody", "tfoot"]
  else if name = "tfoot" then ["tbody"]
  else if name = "tr" then ["tr", "tbody"]
  else if name = "td" then ["td", "th", "tr"]
  else if name = "th" then ["td", "th", "tr"]
  else []

/-- Modelled from the spec: `isVoidElementName` comes from
`src/utils/isVoidElementName.js`, which is not under `src/`.  The spec (§3, §8
and the glossary) specifies the void elements as the HTML void-element names,
with `br` as its example. -/
def isVoidElementName (name : String) : Bool :=
  ["area", "base", "br", "col", "command", "embed", "hr", "img", "input",
   "keygen", "link", "meta", "param", "source", "track", "wbr"].contains name

/-- The `\!?` part shared by the regex test and the spec grammar: consume an
optional leading `!`.  (Consuming greedily is exact here: if the first
character is `!`, the empty alternative of `\!?` leaves `!` to be matched by
`[a-zA-Z]`, which fails anyway.) -/
def stripBang (cs : List Char) : List Char :=
  if cs.head? = some '!' then cs.tail else cs

/-- Embeds the JS test `validTagName.test(name)` from `tag.js`, where
`validTagName` is the regex with source `^\!?[a-zA-Z]{1,}:?[a-zA-Z0-9\-]*`.
`test` only asks for a match anchored at the start (the regex has no final
anchor), and the trailing `:?` and `[a-zA-Z0-9-]*` parts always match, possibly
emptily; so a match exists exactly when the mandatory prefix `\!?[a-zA-Z]`
matches, i.e. when the token starts with a letter, or with `!` followed by a
letter. -/
def validTagName (cs : List Char) : Bool :=
  match stripBang cs with
  | c :: _ => c.isAlpha
  | [] => false

/-- The spec's tag-name grammar, written from the spec's words (claim C4): the
entire token must consist of an optional leading `!`, then one or more letters,
then an optional colon, then zero or more alphanumerics or hyphens, consuming
the whole token. -/
def specTagNameGrammar (cs : List Char) : Bool :=
  let cs1 := stripBang cs
  let letters := cs1.takeWhile (fun c => c.isAlpha)
  if letters.isEmpty then false
  else
    let rest1 := cs1.drop letters.length
    let rest2 := if rest1.head? = some ':' then rest1.tail else rest1
    (rest2.dropWhile (fun c => c.isAlphanum || c = '-')).isEmpty

/-- The JS regex class `invalidUnquotedAttributeCharacters`, with source
`[\s"'=<>\/` ++ backtick ++ `]`, as a character predicate. -/
def invalidUnquotedAttributeCharacters (c : Char) : Bool :=
  isWS c || c = '"' || c = Char.ofNat 39 || c = '=' || c = '<' || c = '>' ||
    c = '/' || c = Char.ofNat 96

/-- JS `\w` word characters (ASCII letters, digits, underscore). -/
def isWordChar (c : Char) : Bool :=
  c.isAlphanum || c = '_'

/-- The JS shorthand test `/^:\w+$/.test(name)` from `readAttribute`. -/
def isShorthand (cs : List Char) : Bool :=
  match cs with
  | c :: rest => c = ':' && !rest.isEmpty && rest.all isWordChar
  | [] => false

/-- Expression nodes, as produced by the external Expression Reader; `tag.js`
treats them as opaque.  Only identifier expressions arise in this development. -/
inductive Expr where
  | Identifier (start : Nat) (end_ : Nat) (name : String)
deriving DecidableEq, Repr

/-- Attribute-value chunks (`Text`, `MustacheTag` from `readAttributeValue`,
`AttributeShorthand` from `getShorthandValue`). -/
inductive Chunk where
  | Text (start : Nat) (end_ : Nat) (data : String)
  | MustacheTag (start : Nat) (end_ : Nat) (expression : Expr)
  | AttributeShorthand (start : Nat) (end_ : Nat) (expression : Expr)
deriving DecidableEq, Repr

/-- Discriminator matching the JS `type` field of a chunk. -/
def Chunk.ctype : Chunk → String
  | .Text _ _ _ => "Text"
  | .MustacheTag _ _ _ => "MustacheTag"
  | .AttributeShorthand _ _ _ => "AttributeShorthand"

/-- An attribute's value: the literal boolean `true` ("present with no value")
or a chunk sequence. -/
inductive AttrValue where
  | boolean
  | chunks (cs : List Chunk)
deriving DecidableEq, Repr

/-- Attribute records produced by `readAttribute`: plain attributes, the two
directive kinds (whose value grammar is external, see `readEventHandlerDirective`
and `readBindingDirective`), and refs. -/
inductive Attribute where
  | Attr (start : Nat) (end_ : Nat) (name : String) (value : AttrValue)
  | EventHandler (start : Nat) (end_ : Nat) (name : String) (expression : Expr)
  | Binding (start : Nat) (end_ : Nat) (name : String) (value : Option Expr)
  | Ref (start : Nat) (end_ : Nat) (name : String)
deriving DecidableEq, Repr

/-- The name carried by an attribute record. -/
def Attribute.attrName : Attribute → String
  | .Attr _ _ n _ => n
  | .EventHandler _ _ n _ => n
  | .Binding _ _ n _ => n
  | .Ref _ _ n => n

/-- Modelled from the spec (§6): the opaque content record returned by the
external raw-content readers for `script` and `style` blocks. -/
structure RawContent where
  start : Nat
  end_ : Nat
  content : String
  attributes : List Attribute
deriving DecidableEq, Repr

/-- Tree nodes.  `Element`, `Comment` and `Text` are built by `tag.js`;
`Fragment` is the synthetic document root, and `Block` stands for the
control-flow block frames (`IfBlock`, `EachBlock`, ...) that the external
document driver can place on the stack. -/
inductive Node where
  | Element (start : Nat) (end_ : Option Nat) (name : String)
      (attributes : List Attribute) (children : List Node)
  | Comment (start : Nat) (end_ : Nat) (data : String)
  | Text (start : Nat) (end_ : Nat) (data : String)
  | Fragment (start : Nat) (end_ : Option Nat) (children : List Node)
  | Block (btype : String) (start : Nat) (end_ : Option Nat) (children : List Node)
deriving Repr

/-- The JS `type` field of a node. -/
def Node.type : Node → String
  | .Element _ _ _ _ _ => "Element"
  | .Comment _ _ _ => "Comment"
  | .Text _ _ _ => "Text"
  | .Fragment _ _ _ => "Fragment"
  | .Block t _ _ _ => t

/-- The JS `name` field of a node (`undefined`, i.e. `none`, on non-elements). -/
def Node.name : Node → Option String
  | .Element _ _ n _ _ => some n
  | _ => none

/-- The JS `children` field of a node (leaves have none). -/
def Node.children : Node → List Node
  | .Element _ _ _ _ cs => cs
  | .Fragment _ _ cs => cs
  | .Block _ _ _ cs => cs
  | _ => []

/-- The JS `data` field of a node (empty on nodes that carry none). -/
def Node.dataOf : Node → String
  | .Comment _ _ d => d
  | .Text _ _ d => d
  | _ => ""

/-- The JS `start` field of a node. -/
def Node.startOf : Node → Nat
  | .Element s _ _ _ _ => s
  | .Comment s _ _ => s
  | .Text s _ _ => s
  | .Fragment s _ _ => s
  | .Block _ s _ _ => s

/-- Replace the `children` of a node (no-op on leaves). -/
def Node.withChildren : Node → List Node → Node
  | .Element s e n a _, cs => .Element s e n a cs
  | .Fragment s e _, cs => .Fragment s e cs
  | .Block t s e _, cs => .Block t s e cs
  | n, _ => n

/-- Replace the `data` of a node (no-op on nodes without `data`). -/
def Node.withData : Node → String → Node
  | .Comment s e _, d => .Comment s e d
  | .Text s e _, d => .Text s e d
  | n, _ => n

/-- Append a child to a node's `children` (`element.children.push(child)`). -/
def Node.pushChild (n : Node) (child : Node) : Node :=
  n.withChildren (n.children ++ [child])

/-- Set the `end` field of a node (`node.end = e`). -/
def Node.setEnd : Node → Nat → Node
  | .Element s _ n a cs, e => .Element s (some e) n a cs
  | .Comment s _ d, e => .Comment s e d
  | .Text s _ d, e => .Text s e d
  | .Fragment s _ cs, e => .Fragment s (some e) cs
  | .Block t s _ cs, e => .Block t s (some e) cs

/-- First half of `stripWhitespace`: if the first child is a `Text` node, trim
its leading whitespace and shift it out when it becomes empty. -/
def applyFirst (cs : List Node) : List Node :=
  match cs with
  | [] => []
  | first :: rest =>
    if first.type = "Text" then
      let d := trimStart first.dataOf
      if d = "" then rest else first.withData d :: rest
    else first :: rest

/-- Second half of `stripWhitespace`: if the last child is a `Text` node, trim
its trailing whitespace and pop it when it becomes empty. -/
def applyLast (cs : List Node) : List Node :=
  match cs.getLast? with
  | none => []
  | some last =>
    if last.type = "Text" then
      let d := trimEnd last.dataOf
      if d = "" then cs.dropLast else cs.dropLast ++ [last.withData d]
    else cs

/-- `stripWhitespace` from `tag.js` (lines 47-62).  The JS function captures
`firstChild` and `lastChild` up front and then mutates sequentially; the
sequential composition `applyLast (applyFirst _)` reproduces that, including
the single-child aliasing case (a lone all-whitespace text child is shifted out
by the first phase, after which the trailing-phase pop is a no-op). -/
def stripWhitespace (element : Node) : Node :=
  if element.children.isEmpty then element
  else element.withChildren (applyLast (applyFirst element.children))

/-- A fatal parse error: message plus source offset (§7). -/
structure ParseError where
  message : String
  pos : Nat
deriving DecidableEq, Repr

/-- The parse state (§3, "Source Cursor"): immutable template, cursor offset,
open-node stack (head is the top), seen meta-tag names, and the two
special-block slots.  Modelled from the spec for the parts owned by the external
document driver. -/
structure Parser where
  template : List Char
  index : Nat
  stack : List Node
  metaTags : List String
  js : Option RawContent
  css : Option RawContent
deriving Repr

/-- Cursor primitive (modelled from the spec, §2): does the template match the
literal `s` at the cursor? -/
def Parser.matchStr (p : Parser) (s : List Char) : Bool :=
  (p.template.drop p.index).take s.length = s

/-- Cursor primitive (modelled from the spec, §2): JS `parser.eat(str)` -
consume the literal if present, returning whether it was consumed. -/
def Parser.eat (p : Parser) (s : List Char) : Bool × Parser :=
  if p.matchStr s then (true, { p with index := p.index + s.length })
  else (false, p)

/-- Cursor primitive (modelled from the spec, §2): JS `parser.eat(str, true)` -
consume the literal or fail with `Expected <str>` at the cursor. -/
def Parser.eatReq (p : Parser) (s : List Char) : Except ParseError Parser :=
  if p.matchStr s then .ok { p with index := p.index + s.length }
  else .error ⟨"Expected " ++ String.mk s, p.index⟩

/-- Cursor primitive (modelled from the spec, §2): skip whitespace. -/
def Parser.allowWhitespace (p : Parser) : Parser :=
  { p with index := p.index + ((p.template.drop p.index).takeWhile isWS).length }

/-- Cursor primitive (modelled from the spec, §2): JS `readUntil` with a
single-character-class regex - consume up to (not including) the first
character satisfying `stop`, or to the end of input. -/
def Parser.readUntilPred (p : Parser) (stop : Char → Bool) : List Char × Parser :=
  let taken := (p.template.drop p.index).takeWhile (fun c => !stop c)
  (taken, { p with index := p.index + taken.length })

/-- Length of the prefix of `s` before the first occurrence of `pat`
(`s.length` when `pat` does not occur). -/
def findSub (pat : List Char) : List Char → Nat
  | [] => 0
  | c :: rest => if (c :: rest).take pat.length = pat then 0 else 1 + findSub pat rest

/-- Cursor primitive (modelled from the spec, §2): JS `readUntil` with a literal
substring pattern - consume up to the first occurrence of `pat`, or to the end
of input. -/
def Parser.readUntilSub (p : Parser) (pat : List Char) : List Char × Parser :=
  let rest := p.template.drop p.index
  let k := findSub pat rest
  (rest.take k, { p with index := p.index + k })

/-- Cursor primitive (modelled from the spec, §2): JS `parser.current()`, the
top of the open-node stack (never empty while parsing, per the §3 invariant;
a default root is supplied for totality). -/
def Parser.current (p : Parser) : Node :=
  p.stack.headD (Node.Fragment 0 none [])

/-- Append a child to the current top of stack
(JS `parser.current().children.push(child)`). -/
def Parser.pushChildTop (p : Parser) (child : Node) : Parser :=
  { p with stack :=
      match p.stack with
      | top :: rest => top.pushChild child :: rest
      | [] => [] }

/-- Character-level `String.drop` (JS `name.slice(n)` on ASCII strings). -/
def strDrop (s : String) (n : Nat) : String :=
  String.mk (s.toList.drop n)

/-- Character-level prefix test (JS `/^pre/.test(name)`). -/
def strHasPrefix (pre : List Char) (s : String) : Bool :=
  pre.isPrefixOf s.toList

/-- Modelled from the spec (§0, §6): the external Expression Reader - given the
cursor, returns an expression node and advances past it.  For this development
it reads a maximal run of identifier characters into an `Identifier` node. -/
def readExpression (p : Parser) : Except ParseError (Expr × Parser) :=
  let r := p.readUntilPred (fun c => !(isWordChar c || c = '$'))
  if r.1.isEmpty then .error ⟨"Expected expression", p.index⟩
  else .ok (.Identifier p.index r.2.index (String.mk r.1), r.2)

/-- Modelled from the spec: `readEventHandlerDirective` lives in
`src/parse/read/directives.js`, which is not under `src/`.  Per §4.2 the tag
core has already consumed `=`; the directive reader consumes the externally
specified directive value, modelled here as an optionally quoted expression. -/
def readEventHandlerDirective (p : Parser) (start : Nat) (name : String) :
    Except ParseError (Attribute × Parser) :=
  let q := p.eat ['"']
  match readExpression q.2 with
  | .error e => .error e
  | .ok (expr, p2) =>
    if q.1 then
      match p2.eatReq ['"'] with
      | .error e => .error e
      | .ok p3 => .ok (.EventHandler start p3.index name expr, p3)
    else .ok (.EventHandler start p2.index name expr, p2)

/-- Modelled from the spec: `readBindingDirective` lives in
`src/parse/read/directives.js`, which is not under `src/`.  Per §4.2 it is keyed
by the remainder after the `bind:` prefix and does not require `=`; the value,
when present, is modelled as an optionally quoted expression. -/
def readBindingDirective (p : Parser) (start : Nat) (name : String) :
    Except ParseError (Attribute × Parser) :=
  let e1 := p.eat ['=']
  if e1.1 then
    let q := e1.2.eat ['"']
    match readExpression q.2 with
    | .error e => .error e
    | .ok (expr, p2) =>
      if q.1 then
        match p2.eatReq ['"'] with
        | .error e => .error e
        | .ok p3 => .ok (.Binding start p3.index name (some expr), p3)
      else .ok (.Binding start p2.index name (some expr), p2)
  else .ok (.Binding start e1.2.index name none, e1.2)

/-- Modelled from the spec: `readScript` lives in `src/parse/read/script.js`,
which is not under `src/`.  Per §0 and §6 it consumes up to the matching
closing tag and returns an opaque content record. -/
def readScript (p : Parser) (start : Nat) (attrs : List Attribute) :
    Except ParseError (RawContent × Parser) :=
  let r := p.readUntilSub ("</script>".toList)
  if r.2.matchStr ("</script>".toList) then
    let p2 := { r.2 with index := r.2.index + 9 }
    .ok (⟨start, p2.index, String.mk r.1, attrs⟩, p2)
  else .error ⟨"Unexpected end of input", r.2.index⟩

/-- Modelled from the spec: `readStyle` lives in `src/parse/read/style.js`,
which is not under `src/`.  Per §0 and §6 it consumes up to the matching
closing tag and returns an opaque content record. -/
def readStyle (p : Parser) (start : Nat) (attrs : List Attribute) :
    Except ParseError (RawContent × Parser) :=
  let r := p.readUntilSub ("</style>".toList)
  if r.2.matchStr ("</style>".toList) then
    let p2 := { r.2 with index := r.2.index + 8 }
    .ok (⟨start, p2.index, String.mk r.1, attrs⟩, p2)
  else .error ⟨"Unexpected end of input", r.2.index⟩

/-- `getShorthandValue` from `tag.js` (lines 345-359): the synthesized value of
a `:name` shorthand attribute - a single `AttributeShorthand` chunk wrapping an
identifier expression, with spans over the shorthand token after the colon. -/
def getShorthandValue (start : Nat) (name : String) : List Chunk :=
  let end_ := start + name.length
  [Chunk.AttributeShorthand start end_ (Expr.Identifier start end_ name)]

/-- The `chunks.forEach` decoding step of `readAttributeValue` (line 330-332):
character references are decoded in `Text` chunks only. -/
def decodeChunk (decode : String → String) : Chunk → Chunk
  | .Text s e d => .Text s e (decode d)
  | c => c

/-- The `done` predicate of `readAttributeValue` (lines 288-290): matching the
opening quote, or any invalid unquoted attribute character. -/
def avDone (quoteMark : Option Char) (c : Char) : Bool :=
  match quoteMark with
  | some q => c = q
  | none => invalidUnquotedAttributeCharacters c

/-- The chunk-accumulation loop of `readAttributeValue` (lines 292-342).
`fuel` bounds the iteration count; every iteration advances the cursor, so any
fuel at least the template length is enough. -/
def avLoop (decode : String → String) (fuel : Nat) (quoteMark : Option Char)
    (curStart : Nat) (curData : String) (chunks : List Chunk) (p : Parser) :
    Except ParseError (List Chunk × Parser) :=
  match fuel with
  | 0 => .error ⟨"out of fuel", p.index⟩
  | fuel + 1 =>
    if p.index < p.template.length then
      let index := p.index
      let m := p.eat ['\x7b', '\x7b']
      if m.1 then
        let chunks1 :=
          if curData = "" then chunks
          else chunks ++ [Chunk.Text curStart index curData]
        match readExpression m.2 with
        | .error e => .error e
        | .ok (expr, p2) =>
          let p3 := p2.allowWhitespace
          let m2 := p3.eat ['\x7d', '\x7d']
          if m2.1 then
            let chunks2 := chunks1 ++ [Chunk.MustacheTag index m2.2.index expr]
            avLoop decode fuel quoteMark m2.2.index "" chunks2 m2.2
          else .error ⟨"Expected \x7d\x7d", m2.2.index⟩
      else
        let c := p.template.getD p.index ' '
        if avDone quoteMark c then
          let pEnd := if quoteMark.isSome then { p with index := p.index + 1 } else p
          let chunksF :=
            if curData = "" then chunks
            else chunks ++ [Chunk.Text curStart p.index curData]
          .ok (chunksF.map (decodeChunk decode), pEnd)
        else
          avLoop decode fuel quoteMark curStart (curData.push c) chunks
            { p with index := p.index + 1 }
    else .error ⟨"Unexpected end of input", p.index⟩

/-- `readAttributeValue` from `tag.js` (lines 275-343).  Both quote `eat`s run
unconditionally, as in the source, so a double quote wins over a single quote
when both are present in sequence. -/
def readAttributeValue (decode : String → String) (fuel : Nat) (p : Parser) :
    Except ParseError (List Chunk × Parser) :=
  let q1 := p.eat [Char.ofNat 39]
  let q2 := q1.2.eat ['"']
  let quoteMark : Option Char :=
    if q2.1 then some '"' else if q1.1 then some (Char.ofNat 39) else none
  avLoop decode fuel quoteMark q2.2.index "" [] q2.2

/-- The stop class of the attribute-name `readUntil` regex `(\s|=|\/|>)`. -/
def attrNameStop (c : Char) : Bool :=
  isWS c || c = '=' || c = '/' || c = '>'

/-- The stop class of the tag-name `readUntil` regex `(\s|\/|>)`. -/
def tagNameStop (c : Char) : Bool :=
  isWS c || c = '/' || c = '>'

/-- `readAttribute` from `tag.js` (lines 225-273).  Returns `none` when no name
token is present (end of the attribute list); otherwise the attribute record,
the advanced parser, and the updated raw-token uniqueness set.  Note that the
uniqueness check and registration use the raw token, before any prefix or
shorthand rewriting. -/
def readAttribute (decode : String → String) (fuel : Nat) (p : Parser)
    (uniqueNames : List String) :
    Except ParseError (Option (Attribute × Parser × List String)) :=
  let start := p.index
  let r := p.readUntilPred attrNameStop
  let name := String.mk r.1
  if name = "" then .ok none
  else if uniqueNames.contains name then
    .error ⟨"Attributes need to be unique", start⟩
  else
    let uniq := name :: uniqueNames
    let p2 := r.2.allowWhitespace
    if strHasPrefix ("on:".toList) name then
      match p2.eatReq ['='] with
      | .error e => .error e
      | .ok p3 =>
        match readEventHandlerDirective p3 start (strDrop name 3) with
        | .error e => .error e
        | .ok (a, p4) => .ok (some (a, p4, uniq))
    else if strHasPrefix ("bind:".toList) name then
      match readBindingDirective p2 start (strDrop name 5) with
      | .error e => .error e
      | .ok (a, p3) => .ok (some (a, p3, uniq))
    else if strHasPrefix ("ref:".toList) name then
      .ok (some (.Ref start p2.index (strDrop name 4), p2, uniq))
    else if isShorthand r.1 then
      let sname := strDrop name 1
      .ok (some (.Attr start p2.index sname
        (.chunks (getShorthandValue (start + 1) sname)), p2, uniq))
    else
      let e1 := p2.eat ['=']
      if e1.1 then
        match readAttributeValue decode fuel e1.2 with
        | .error e => .error e
        | .ok (value, p4) =>
          .ok (some (.Attr start p4.index name (.chunks value), p4, uniq))
      else .ok (some (.Attr start e1.2.index name .boolean, e1.2, uniq))

/-- The attribute loop of `tag` (lines 140-147): repeatedly read attributes,
skipping whitespace after each, until no name token is present.  `fuel` bounds
the iteration count; each successful read consumes at least one character. -/
def readAttributes (decode : String → String) (fuel : Nat) (p : Parser)
    (uniqueNames : List String) (acc : List Attribute) :
    Except ParseError (List Attribute × Parser) :=
  match fuel with
  | 0 => .error ⟨"out of fuel", p.index⟩
  | fuel + 1 =>
    match readAttribute decode fuel p uniqueNames with
    | .error e => .error e
    | .ok none => .ok (acc, p)
    | .ok (some (a, p1, uniq)) =>
      readAttributes decode fuel p1.allowWhitespace uniq (acc ++ [a])

/-- `readTagName` from `tag.js` (lines 190-223): the self-reference sentinel is
legal only above an if- or each-block frame; meta-tag names pass verbatim; any
other token must pass the (prefix-only) `validTagName` test. -/
def readTagName (p : Parser) : Except ParseError (String × Parser) :=
  let start := p.index
  let s := p.eat (SELF.toList)
  if s.1 then
    if p.stack.any (fun f => f.type = "IfBlock" || f.type = "EachBlock") then
      .ok (SELF, s.2)
    else
      .error ⟨"<" ++ SELF ++ "> components can only exist inside if-blocks or each-blocks",
        start⟩
  else
    let r := p.readUntilPred tagNameStop
    let name := String.mk r.1
    if metaTags.contains name then .ok (name, r.2)
    else if validTagName r.1 then .ok (name, r.2)
    else .error ⟨"Expected valid tag name", start⟩

/-- The meta-tag block of `tag` (lines 87-101): a second occurrence of a
registered meta-tag name errors (with a children-specific message on a closing
form whose element has accumulated children); a first occurrence is registered
and must be at top level (stack depth exactly 1). -/
def metaTagCheck (isClosingTag : Bool) (name : String) (start : Nat) (p : Parser) :
    Except ParseError Parser :=
  if metaTags.contains name then
    if p.metaTags.contains name then
      if isClosingTag && !p.current.children.isEmpty then
        .error ⟨"<" ++ name ++ "> cannot have children",
          ((p.current.children.headD (Node.Fragment 0 none [])).startOf)⟩
      else
        .error ⟨"A component can only have one <" ++ name ++ "> tag", start⟩
    else
      let p1 := { p with metaTags := name :: p.metaTags }
      if p1.stack.length > 1 then
        .error ⟨"<" ++ name ++ "> tags cannot be inside elements or blocks", start⟩
      else .ok p1
  else .ok p

/-- The closing-tag stack walk of `tag` (lines 113-120), with the stack length
as structural fuel (`closeWalk` supplies the exact length; every recursive call
shrinks the stack by one).  While the top's name differs from the closing name:
a non-`Element` top is a hard error; otherwise the top gets `end = start` and
is popped (in the spine model, appended - untrimmed - to the children of the
entry below it). -/
def closeWalkAux (name : String) (start : Nat) : Nat → List Node →
    Except ParseError (List Node)
  | _, [] =>
    .error ⟨"</" ++ name ++ "> attempted to close an element that was not open", start⟩
  | 0, _ :: _ =>
    .error ⟨"</" ++ name ++ "> attempted to close an element that was not open", start⟩
  | n + 1, top :: rest =>
    if top.name = some name then .ok (top :: rest)
    else if top.type ≠ "Element" then
      .error ⟨"</" ++ name ++ "> attempted to close an element that was not open", start⟩
    else
      match rest with
      | below :: r => closeWalkAux name start n (below.pushChild (top.setEnd start) :: r)
      | [] =>
        .error ⟨"</" ++ name ++ "> attempted to close an element that was not open", start⟩

/-- The closing-tag stack walk of `tag` (lines 113-120). -/
def closeWalk (name : String) (start : Nat) (stack : List Node) :
    Except ParseError (List Node) :=
  closeWalkAux name start stack.length stack

/-- The tail of the closing-tag path (lines 122-126): the matched target
element is whitespace-stripped, gets `end = parser.index`, and is popped. -/
def closeTagFinish (endIndex : Nat) (stack : List Node) : List Node :=
  match stack with
  | target :: below :: r =>
    below.pushChild ((stripWhitespace target).setEnd endIndex) :: r
  | _ :: [] => []
  | [] => []

/-- The implied-close-on-open step of `tag` (lines 129-138): when the current
parent's name maps, in the disallowed-contents table, to a set containing the
new tag's name, the parent is whitespace-stripped, gets `end = start`, and is
popped; otherwise the stack is untouched. -/
def impliedClose (name : String) (start : Nat) (stack : List Node) : List Node :=
  match stack with
  | parent :: rest =>
    match parent.name with
    | some pname =>
      if (disallowedContents pname).contains name then
        match rest with
        | below :: r => below.pushChild ((stripWhitespace parent).setEnd start) :: r
        | [] => []
      else parent :: rest
    | none => parent :: rest
  | [] => []

/-- The generic element creation tail of `tag` (lines 165-187): build the
`Element` node, determine self-closing (explicit `/` or a void-element name),
require `>`; a self-closing element gets `end` immediately and is appended to
the current parent's children without being pushed, otherwise it becomes the
new top of stack (appended to its parent's children when later popped, per the
spine model). -/
def finishElement (p : Parser) (start : Nat) (name : String)
    (attrs : List Attribute) : Except ParseError Parser :=
  let element := Node.Element start none name attrs []
  let sc := p.eat ['/']
  let selfClosing := sc.1 || isVoidElementName name
  match sc.2.eatReq ['>'] with
  | .error e => .error e
  | .ok p2 =>
    if selfClosing then .ok (p2.pushChildTop (element.setEnd p2.index))
    else .ok { p2 with stack := element :: p2.stack }

/-- The special-block dispatch and element creation tail of `tag`
(lines 151-187): a top-level `script`/`style` whose slot is already filled is a
hard error (the source sets `parser.index = start` and raises at that offset,
i.e. at the start of the current, duplicate tag); an unfilled slot delegates to
the matching raw-content reader; everything else builds an element. -/
def tagFinish (name : String) (start : Nat) (attrs : List Attribute) (p : Parser) :
    Except ParseError Parser :=
  if specialsHas name ∧ p.stack.length = 1 then
    if (if name = "script" then p.js.isSome else p.css.isSome) then
      .error ⟨"You can only have one top-level <" ++ name ++ "> tag per component", start⟩
    else
      match p.eatReq ['>'] with
      | .error e => .error e
      | .ok p2 =>
        if name = "script" then
          match readScript p2 start attrs with
          | .error e => .error e
          | .ok (content, p3) => .ok { p3 with js := some content }
        else
          match readStyle p2 start attrs with
          | .error e => .error e
          | .ok (content, p3) => .ok { p3 with css := some content }
  else finishElement p start name attrs

/-- The tag state machine: `tag` from `tag.js` (lines 64-188).  Invoked with
the cursor on `<`; handles comments, closing tags (with the auto-close walk),
the implied-close-on-open rule, attributes, special raw-content blocks, and
generic element creation. -/
def tag (decode : String → String) (fuel : Nat) (p0 : Parser) :
    Except ParseError Parser :=
  let start := p0.index
  let p := { p0 with index := p0.index + 1 }
  let cm := p.eat ("!--".toList)
  if cm.1 then
    let dr := cm.2.readUntilSub ("-->".toList)
    let p2 := (dr.2.eat ("-->".toList)).2
    .ok (p2.pushChildTop (Node.Comment start p2.index (String.mk dr.1)))
  else
    let cl := p.eat ['/']
    let isClosingTag := cl.1
    match readTagName cl.2 with
    | .error e => .error e
    | .ok (name, p2) =>
      match metaTagCheck isClosingTag name start p2 with
      | .error e => .error e
      | .ok p3 =>
        let p4 := p3.allowWhitespace
        if isClosingTag then
          if isVoidElementName name then
            .error ⟨"<" ++ name ++
              "> is a void element and cannot have children, or a closing tag", start⟩
          else
            let gt := p4.eat ['>']
            if gt.1 then
              match closeWalk name start gt.2.stack with
              | .error e => .error e
              | .ok stack1 => .ok { gt.2 with stack := closeTagFinish gt.2.index stack1 }
            else .error ⟨"Expected \x27>\x27", gt.2.index⟩
        else
          let p5 := { p4 with stack := impliedClose name start p4.stack }
          match readAttributes decode fuel p5 [] [] with
          | .error e => .error e
          | .ok (attrs, p6) =>
            tagFinish name start attrs p6.allowWhitespace

/-- Modelled from the spec (§0, §2): the top-level document driver, an external
collaborator, dispatches to the tag handler at each `<` and otherwise
accumulates the literal text up to the next `<` as a `Text` child of the
current top of stack, decoded by the external character-reference decoder. -/
def parseRun (decode : String → String) (fuel : Nat) (p : Parser) :
    Except ParseError Parser :=
  match fuel with
  | 0 => .error ⟨"out of fuel", p.index⟩
  | fuel + 1 =>
    if p.index < p.template.length then
      if p.template.getD p.index ' ' = '<' then
        match tag decode fuel p with
        | .error e => .error e
        | .ok p1 => parseRun decode fuel p1
      else
        let r := p.readUntilPred (fun c => c = '<')
        parseRun decode fuel
          (r.2.pushChildTop (Node.Text p.index r.2.index (decode (String.mk r.1))))
    else .ok p

/-- The initial parse state: cursor at 0, the synthetic root fragment alone on
the stack, no meta-tags seen, both special-block slots empty. -/
def initialParser (s : String) : Parser :=
  { template := s.toList, index := 0, stack := [Node.Fragment 0 none []],
    metaTags := [], js := none, css := none }

/-- Parse a whole template with the modelled driver. -/
def parseTemplate (decode : String → String) (fuel : Nat) (s : String) :
    Except ParseError Parser :=
  parseRun decode fuel (initialParser s)

/-- Helper for `nestAutoClosed`: folds the remaining auto-closed chain into the
accumulated innermost node and finally appends the result to the target. -/
def nestAutoClosedGo (start : Nat) : List Node → Node → Node → Node
  | [], acc, target => target.pushChild acc
  | e :: es, acc, target => nestAutoClosedGo start es ((e.pushChild acc).setEnd start) target

/-- The shape of the auto-close walk's effect: the chain of auto-closed
elements (top of stack first) is nested - each with `end = start` and with its
children otherwise unchanged, in particular not whitespace-trimmed - and the
innermost-to-outermost result is appended to the target element's children. -/
def nestAutoClosed (start : Nat) : List Node → Node → Node
  | [], target => target
  | e :: es, target => nestAutoClosedGo start es (e.setEnd start) target

/-- Boolean discriminator for failed results. -/
def isErrorResult : Except ParseError Parser → Bool
  | .error _ => true
  | .ok _ => false

/-- Mid-parse state of the template `<div><p>hi </div>` with the cursor on the
closing tag (the state the driver reaches after `<div>`, `<p>` and the text
`hi `): the open `p` holds the text child `hi ` with a trailing space, with
`div` and the root below it on the stack. -/
def pAutoClose : Parser :=
  Parser.mk ("<div><p>hi </div>".toList) 11
    [Node.Element 5 none "p" [] [Node.Text 8 11 "hi "],
     Node.Element 0 none "div" [] [],
     Node.Fragment 0 none []]
    [] none none

/-- State of the template `<a :foo>` with the cursor at the attribute token. -/
def pShorthand : Parser :=
  Parser.mk ("<a :foo>".toList) 3 [Node.Fragment 0 none []] [] none none

/-- State of the template `<a foo="{{foo}}">` (braces written out) with the
cursor at the attribute token. -/
def pLonghand : Parser :=
  Parser.mk (("<a foo=" ++ "\"\x7b\x7bfoo\x7d\x7d\"" ++ ">").toList) 3
    [Node.Fragment 0 none []] [] none none

/-- Mid-parse state of `<script>a</script><script>b</script>` with the cursor
on the second `<script>` tag (offset 18) and the script slot already filled by
the first block, whose tag started at offset 0. -/
def pDupScript : Parser :=
  Parser.mk ("<script>a</script><script>b</script>".toList) 18
    [Node.Fragment 0 none []] [] (some (RawContent.mk 0 18 "a" [])) none

/-- State of the template `<a$>` with the cursor on the tag-name token. -/
def pBadName : Parser :=
  Parser.mk ("<a$>".toList) 1 [Node.Fragment 0 none []] [] none none

/-- Initial state of the template `<div :foo foo>` (cursor on `<`). -/
def pDupAttr : Parser :=
  Parser.mk ("<div :foo foo>".toList) 0 [Node.Fragment 0 none []] [] none none

/-- C7: parsing the fragment `<li>one<li>two` produces two sibling `li`
elements under the same parent.  The final state exhibits this: the first `li`
(offsets 0-7, text child `one`) was implicitly closed by the disallowed-contents
lookup and is a child of the root fragment, while the second `li` (started at
offset 7, text child `two`) is still open directly above the root on the stack,
so its insertion parent is the root as well - not the first `li`.  (The
document driver and text handler are modelled from the spec; the tag logic is
the embedded source.) -/
theorem C7_li_siblings :
    parseTemplate id 99 ("<li>one<li>two") = .ok
      (Parser.mk ("<li>one<li>two".toList) 14
        [Node.Element 7 none "li" [] [Node.Text 11 14 "two"],
         Node.Fragment 0 none [Node.Element 0 (some 7) "li" [] [Node.Text 4 7 "one"]]]
        [] none none) := rfl

/-- C1 counterexample: the claim states that every element popped during the
auto-close stack walk has its leading/trailing whitespace-only text trimmed per
the `stripWhitespace` rule before being popped.  Running the tag handler on the
closing tag of `<div><p>hi </div>` auto-closes `p`, yet the resulting tree
keeps `p`'s text child as `hi ` with its trailing space intact, although
`trimEnd` (the `stripWhitespace` rule for a last text child) would have turned
it into `hi`.  Only the target `div` was stripped. -/
theorem C1_counterexample :
    tag id 99 pAutoClose = .ok
      (Parser.mk ("<div><p>hi </div>".toList) 17
        [Node.Fragment 0 none
          [Node.Element 0 (some 17) "div" []
            [Node.Element 5 (some 11) "p" [] [Node.Text 8 11 "hi "]]]]
        [] none none) ∧
    trimEnd ("hi ") = "hi" ∧ ("hi " : String) ≠ "hi" :=
  ⟨rfl, rfl, by decide⟩

/-- C2 counterexample: the claim states that parsing the attribute token `:foo`
produces a value whose single chunk is a `MustacheTag`.  It is in fact an
`AttributeShorthand` chunk (JS `type: 'AttributeShorthand'`, see
`getShorthandValue`), not a `MustacheTag`. -/
theorem C2_counterexample :
    readAttribute id 99 pShorthand [] = .ok (some
      (Attribute.Attr 3 7 "foo" (AttrValue.chunks
        [Chunk.AttributeShorthand 4 7 (Expr.Identifier 4 7 "foo")]),
       Parser.mk ("<a :foo>".toList) 7 [Node.Fragment 0 none []] [] none none,
       [":foo"])) ∧
    Chunk.ctype (Chunk.AttributeShorthand 4 7 (Expr.Identifier 4 7 "foo")) ≠ "MustacheTag" :=
  ⟨rfl, by decide⟩

/-- C3 counterexample: the claim states that the duplicate special-block error
carries the position of the first occurrence of the block kind.  On
`<script>a</script><script>b</script>` the first `<script>` starts at offset 0,
but the error raised at the second occurrence carries offset 18 - the start of
the second, duplicate tag (the source sets `parser.index = start` of the
current tag and raises there). -/
theorem C3_counterexample :
    tag id 99 pDupScript =
      .error ⟨"You can only have one top-level <script> tag per component", 18⟩ ∧
    (18 : Nat) ≠ 0 :=
  ⟨rfl, by decide⟩

/-- C4 counterexample: the claim states that no tag-name token containing
characters outside the tag-name grammar is accepted.  The token `a$` is outside
that grammar (the `$` fits no part of it), yet the Tag Name Reader accepts it,
because the source regex is not anchored at the end and only a prefix is
checked. -/
theorem C4_counterexample :
    readTagName pBadName = .ok ("a$",
      Parser.mk ("<a$>".toList) 3 [Node.Fragment 0 none []] [] none none) ∧
    specTagNameGrammar ("a$".toList) = false :=
  ⟨rfl, by decide⟩

/-- C5 counterexample: the claim states that the attribute names in a parsed
tag's attribute list are pairwise distinct and that a token whose name matches
an already-produced attribute's name errors.  Parsing `<div :foo foo>` succeeds
and produces two attributes both named `foo`: the uniqueness set stores the raw
token `:foo`, not the rewritten name `foo`, so the later plain token `foo` does
not collide. -/
theorem C5_counterexample :
    tag id 99 pDupAttr = .ok
      (Parser.mk ("<div :foo foo>".toList) 14
        [Node.Element 0 none "div"
          [Attribute.Attr 5 10 "foo" (AttrValue.chunks
            [Chunk.AttributeShorthand 6 9 (Expr.Identifier 6 9 "foo")]),
           Attribute.Attr 10 13 "foo" AttrValue.boolean] [],
         Node.Fragment 0 none []]
        [] none none) ∧
    [Attribute.Attr 5 10 "foo" (AttrValue.chunks
        [Chunk.AttributeShorthand 6 9 (Expr.Identifier 6 9 "foo")]),
      Attribute.Attr 10 13 "foo" AttrValue.boolean].map Attribute.attrName =
      ["foo", "foo"] ∧
    ¬ (["foo", "foo"] : List String).Nodup :=
  ⟨rfl, rfl, by decide⟩

/-- Appending a child does not change a node's `type`. -/
theorem Node.type_pushChild (n c : Node) : (n.pushChild c).type = n.type := by
  cases n <;> rfl

/-- Appending a child does not change a node's `name`. -/
theorem Node.name_pushChild (n c : Node) : (n.pushChild c).name = n.name := by
  cases n <;> rfl

/-- Setting `end` does not change a node's `type`. -/
theorem Node.type_setEnd (n : Node) (e : Nat) : (n.setEnd e).type = n.type := by
  cases n <;> rfl

/-- Setting `end` does not change a node's `name`. -/
theorem Node.name_setEnd (n : Node) (e : Nat) : (n.setEnd e).name = n.name := by
  cases n <;> rfl

/-- Setting `end` does not change a node's `children`. -/
theorem Node.children_setEnd (n : Node) (e : Nat) : (n.setEnd e).children = n.children := by
  cases n <;> rfl

/-- Characterization of the auto-close walk: on a stack consisting of a chain
of open elements whose names differ from the closing name, then the matching
target, then the remainder, the walk pops exactly the chain, giving each popped
element `end = start` and leaving its children untouched (`nestAutoClosed`
applies only `setEnd` and `pushChild`, no whitespace stripping), and stops with
the target on top. -/
theorem closeWalkAux_nests (name : String) (start : Nat) :
    ∀ (n : Nat) (chain : List Node) (target : Node) (rest : List Node),
      chain.length + rest.length + 1 = n →
      (∀ e ∈ chain, e.type = "Element" ∧ e.name ≠ some name) →
      target.name = some name →
      closeWalkAux name start n (chain ++ target :: rest) =
        .ok (nestAutoClosed start chain target :: rest) := by
  intro n
  induction n with
  | zero =>
    intro chain target rest h _ _
    omega
  | succ n ih =>
    intro chain target rest h hchain htarget
    match chain with
    | [] =>
      simp only [List.nil_append, nestAutoClosed]
      simp [closeWalkAux, htarget]
    | [e1] =>
      have he1 := hchain e1 (by simp)
      simp only [List.cons_append, List.nil_append]
      rw [closeWalkAux]
      rw [if_neg (by simp [he1.2]), if_neg (by simp [he1.1])]
      have hnew : (target.pushChild (e1.setEnd start)).name = some name := by
        rw [Node.name_pushChild]; exact htarget
      have := ih [] (target.pushChild (e1.setEnd start)) rest (by simp at h ⊢; omega)
        (by intro e he; simp at he) hnew
      simpa [nestAutoClosed, nestAutoClosedGo] using this
    | e1 :: e2 :: es =>
      have he1 := hchain e1 (by simp)
      have he2 := hchain e2 (by simp)
      simp only [List.cons_append]
      rw [closeWalkAux]
      rw [if_neg (by simp [he1.2]), if_neg (by simp [he1.1])]
      have hchain2 : ∀ e ∈ (e2.pushChild (e1.setEnd start)) :: es,
          e.type = "Element" ∧ e.name ≠ some name := by
        intro e he
        rcases List.mem_cons.mp he with h1 | h1
        · subst h1
          constructor
          · rw [Node.type_pushChild]; exact he2.1
          · rw [Node.name_pushChild]; exact he2.2
        · exact hchain e (by simp [h1])
      have := ih ((e2.pushChild (e1.setEnd start)) :: es) target rest
        (by simp at h ⊢; omega) hchain2 htarget
      simpa [nestAutoClosed, nestAutoClosedGo] using this

/-- C1 (amended): on the closing-tag path, every auto-closed element popped
during the stack walk gets its `end` set to the closing tag's start offset and
is popped with its children unchanged - in particular its whitespace-only text
children are NOT trimmed; only the final target element is whitespace-trimmed
(per the `stripWhitespace` rule) and gets its `end` set to the post-tag offset
before being popped.  The first conjunct characterizes the walk via
`nestAutoClosed`, which applies only `setEnd` and `pushChild` to the popped
elements; the second states the target handling performed afterwards. -/
theorem C1_auto_close_no_trim (name : String) (start : Nat) (chain : List Node)
    (target : Node) (rest : List Node)
    (hchain : ∀ e ∈ chain, e.type = "Element" ∧ e.name ≠ some name)
    (htarget : target.name = some name) :
    closeWalk name start (chain ++ target :: rest) =
      .ok (nestAutoClosed start chain target :: rest) ∧
    ∀ (idx : Nat) (below : Node) (r : List Node),
      closeTagFinish idx (target :: below :: r) =
        below.pushChild ((stripWhitespace target).setEnd idx) :: r := by
  constructor
  · unfold closeWalk
    exact closeWalkAux_nests name start (chain ++ target :: rest).length chain target rest
      (by simp; omega) hchain htarget
  · intro idx below r
    rfl

/-- C1 witness: the amended claim applied to the concrete stack of
`<div><p>hi </div>` at its closing tag (the open `p` is auto-closed into
`div`). -/
theorem C1_auto_close_no_trim_witness :
    closeWalk "div" 11
        [Node.Element 5 none "p" [] [Node.Text 8 11 "hi "],
         Node.Element 0 none "div" [] [],
         Node.Fragment 0 none []] =
      .ok (nestAutoClosed 11 [Node.Element 5 none "p" [] [Node.Text 8 11 "hi "]]
            (Node.Element 0 none "div" [] []) :: [Node.Fragment 0 none []]) :=
  (C1_auto_close_no_trim "div" 11 [Node.Element 5 none "p" [] [Node.Text 8 11 "hi "]]
    (Node.Element 0 none "div" [] []) [Node.Fragment 0 none []]
    (by intro e he; rw [List.mem_singleton] at he; subst he; exact ⟨rfl, by decide⟩)
    rfl).1

/-- C2 (amended): for every character-reference decoder, parsing the attribute
token `:foo` produces an attribute named `foo` whose value is a one-element
chunk sequence consisting of an `AttributeShorthand` chunk wrapping the
identifier expression `foo` (spans over the shorthand token after the colon),
while parsing `foo="{{foo}}"` produces an attribute named `foo` whose value is
one `MustacheTag` chunk wrapping the identifier `foo`; both wrap identifier
`foo`, but the two results are not equal - the chunk types (and spans)
differ. -/
theorem C2_shorthand_vs_mustache (decode : String → String) :
    readAttribute decode 99 pShorthand [] = .ok (some
      (Attribute.Attr 3 7 "foo" (AttrValue.chunks
        [Chunk.AttributeShorthand 4 7 (Expr.Identifier 4 7 "foo")]),
       Parser.mk ("<a :foo>".toList) 7 [Node.Fragment 0 none []] [] none none,
       [":foo"])) ∧
    readAttribute decode 99 pLonghand [] = .ok (some
      (Attribute.Attr 3 16 "foo" (AttrValue.chunks
        [Chunk.MustacheTag 8 15 (Expr.Identifier 10 13 "foo")]),
       Parser.mk (("<a foo=" ++ "\"\x7b\x7bfoo\x7d\x7d\"" ++ ">").toList) 16
         [Node.Fragment 0 none []] [] none none,
       ["foo"])) ∧
    ([Chunk.AttributeShorthand 4 7 (Expr.Identifier 4 7 "foo")] : List Chunk) ≠
      [Chunk.MustacheTag 8 15 (Expr.Identifier 10 13 "foo")] :=
  ⟨rfl, rfl, by decide⟩

/-- C3 (amended): the duplicate special-block error is raised with the source
offset of the second, duplicate occurrence (the `start` of the tag currently
being parsed - the source sets `parser.index = start` and raises there), not
the position of the first occurrence. -/
theorem C3_duplicate_special_position (name : String) (start : Nat)
    (attrs : List Attribute) (p : Parser)
    (hname : name = "script" ∨ name = "style")
    (hdepth : p.stack.length = 1)
    (hfilled : (if name = "script" then p.js.isSome else p.css.isSome) = true) :
    tagFinish name start attrs p =
      .error ⟨"You can only have one top-level <" ++ name ++ "> tag per component", start⟩ := by
  rcases hname with h | h <;> subst h
  · have hf : p.js.isSome = true := by simpa using hfilled
    simp [tagFinish, specialsHas, hdepth, hf]
  · have hf : p.css.isSome = true := by simpa using hfilled
    simp [tagFinish, specialsHas, hdepth, hf]

/-- C3 witness: the amended claim at the concrete state `pDupScript`
(second `<script>` at offset 18, first block recorded from offset 0). -/
theorem C3_duplicate_special_position_witness :
    tagFinish "script" 18 [] pDupScript =
      .error ⟨"You can only have one top-level <script> tag per component", 18⟩ :=
  C3_duplicate_special_position "script" 18 [] pDupScript (Or.inl rfl) rfl rfl

/-- C4 (amended): the Tag Name Reader does not check the entire token against
the tag-name grammar - the source regex is unanchored at the end, so only the
mandatory prefix (optional `!`, then at least one letter) is checked.
Precisely: (1) every token that fully matches the spec's grammar is accepted by
the source's test; (2) the source's test depends only on the token's first two
characters, so arbitrary trailing characters never cause rejection; and (3) for
a token that is neither the self-reference sentinel nor a meta-tag name, the
reader succeeds on exactly the tokens accepted by that prefix-only test. -/
theorem C4_tag_name_prefix_only :
    (∀ cs : List Char, specTagNameGrammar cs = true → validTagName cs = true) ∧
    (∀ (x y : Char) (t t' : List Char),
      validTagName (x :: y :: t) = validTagName (x :: y :: t')) ∧
    (∀ (p : Parser), p.matchStr (SELF.toList) = false →
      metaTags.contains (String.mk (p.readUntilPred tagNameStop).1) = false →
      (readTagName p =
          .ok (String.mk (p.readUntilPred tagNameStop).1, (p.readUntilPred tagNameStop).2) ↔
        validTagName (p.readUntilPred tagNameStop).1 = true)) := by
  refine ⟨?_, ?_, ?_⟩
  · intro cs h
    simp only [specTagNameGrammar] at h
    simp only [validTagName]
    cases hcs : stripBang cs with
    | nil => rw [hcs] at h; simp at h
    | cons b m =>
      rw [hcs] at h
      by_cases hb : b.isAlpha
      · exact hb
      · rw [List.takeWhile_cons] at h
        simp [hb] at h
  · intro x y t t'
    simp only [validTagName, stripBang]
    by_cases hx : x = '!' <;> simp [hx]
  · intro p hself hmeta
    simp only [readTagName, Parser.eat, hself]
    simp only [Bool.false_eq_true, if_false, hmeta]
    by_cases hv : validTagName (p.readUntilPred tagNameStop).1 = true
    · simp [hv]
    · simp [hv]

/-- C4 witness: part (3) of the amended claim instantiated at the concrete
state of `<b%>` with the cursor on the name token: acceptance of the token
`b%` is equivalent to the prefix-only test. -/
theorem C4_tag_name_prefix_only_witness :
    readTagName (Parser.mk ("<b%>".toList) 1 [Node.Fragment 0 none []] [] none none) =
        .ok ("b%", Parser.mk ("<b%>".toList) 3 [Node.Fragment 0 none []] [] none none) ↔
      validTagName ("b%".toList) = true :=
  C4_tag_name_prefix_only.2.2
    (Parser.mk ("<b%>".toList) 1 [Node.Fragment 0 none []] [] none none) rfl rfl

/-- C5 (amended): attribute uniqueness is enforced on the raw pre-classification
token: a token exactly equal to one already seen raises `Attributes need to be
unique` at the token's start before anything else happens.  Distinct raw tokens
can still yield equal final attribute names (the uniqueness set stores `:foo`
verbatim, while the produced attribute is named `foo`), so the resulting
attribute list's names need not be pairwise distinct. -/
theorem C5_raw_token_unique (decode : String → String) (fuel : Nat) (p : Parser)
    (uniqueNames : List String)
    (hne : String.mk (p.readUntilPred attrNameStop).1 ≠ "")
    (hdup : uniqueNames.contains (String.mk (p.readUntilPred attrNameStop).1) = true) :
    readAttribute decode fuel p uniqueNames =
      .error ⟨"Attributes need to be unique", p.index⟩ := by
  simp only [readAttribute]
  rw [if_neg hne, if_pos hdup]

/-- C5 witness: the amended claim at the second `foo` of `<div foo foo>`: the
raw token `foo` is already registered, and reading it errors at offset 9. -/
theorem C5_raw_token_unique_witness :
    readAttribute id 9
        (Parser.mk ("<div foo foo>".toList) 9 [Node.Fragment 0 none []] [] none none)
        ["foo"] =
      .error ⟨"Attributes need to be unique", 9⟩ :=
  C5_raw_token_unique id 9
    (Parser.mk ("<div foo foo>".toList) 9 [Node.Fragment 0 none []] [] none none)
    ["foo"] (by decide) (by decide)

/-- C6: for every well-formed opening tag whose name is a void-element name,
the created `Element` node is not pushed onto the open-element stack (the stack
keeps its length, with the node appended to the current parent's children
instead), its `end` is set immediately to the post-tag offset, and its children
sequence is empty.  (`isVoidElementName` is modelled from the spec; the
element-creation logic is the embedded source.) -/
theorem C6_void_not_pushed (p : Parser) (start : Nat) (name : String)
    (attrs : List Attribute) (top : Node) (rest : List Node) (p' : Parser)
    (hstack : p.stack = top :: rest)
    (hvoid : isVoidElementName name = true)
    (hok : finishElement p start name attrs = .ok p') :
    p'.stack.length = p.stack.length ∧
    p'.stack = top.pushChild (Node.Element start (some p'.index) name attrs []) :: rest := by
  by_cases h1 : p.matchStr ['/']
  · by_cases h2 : Parser.matchStr { p with index := p.index + 1 } ['>']
    · simp [finishElement, Parser.eat, Parser.eatReq, h1, h2, hvoid] at hok
      subst hok
      simp [Parser.pushChildTop, hstack, Node.setEnd]
    · simp [finishElement, Parser.eat, Parser.eatReq, h1, h2, hvoid] at hok
  · by_cases h2 : p.matchStr ['>']
    · simp [finishElement, Parser.eat, Parser.eatReq, h1, h2, hvoid] at hok
      subst hok
      simp [Parser.pushChildTop, hstack, Node.setEnd]
    · simp [finishElement, Parser.eat, Parser.eatReq, h1, h2, hvoid] at hok

/-- C6 witness: the claim applied to `<br>` with the cursor after the name:
the element ends at offset 4, the stack length is unchanged, and the `br`
node's children are `[]`. -/
theorem C6_void_not_pushed_witness :
    (Parser.mk ("<br>".toList) 4
        [Node.Fragment 0 none [Node.Element 0 (some 4) "br" [] []]] [] none none).stack.length =
      (Parser.mk ("<br>".toList) 3 [Node.Fragment 0 none []] [] none none).stack.length ∧
    (Parser.mk ("<br>".toList) 4
        [Node.Fragment 0 none [Node.Element 0 (some 4) "br" [] []]] [] none none).stack =
      (Node.Fragment 0 none []).pushChild
          (Node.Element 0 (some (Parser.mk ("<br>".toList) 4
            [Node.Fragment 0 none [Node.Element 0 (some 4) "br" [] []]] [] none none).index)
            "br" [] []) :: [] :=
  C6_void_not_pushed
    (Parser.mk ("<br>".toList) 3 [Node.Fragment 0 none []] [] none none) 0 "br" []
    (Node.Fragment 0 none []) []
    (Parser.mk ("<br>".toList) 4
      [Node.Fragment 0 none [Node.Element 0 (some 4) "br" [] []]] [] none none)
    rfl rfl rfl

/-- C8: a singleton meta-tag name occurring as an opening tag when it is
already registered raises a `SyntaxError` at the second occurrence's start
offset (the `start` passed for the tag currently being parsed); and a meta-tag
occurring while the open-element stack holds more than just the root (depth
greater than 1) raises a `SyntaxError` at that tag's start, whether opening or
closing. -/
theorem C8_meta_tag_errors (p q : Parser) (start sq : Nat)
    (hdup : p.metaTags.contains ":Window" = true)
    (hnew : q.metaTags.contains ":Window" = false)
    (hdepth : q.stack.length > 1) :
    metaTagCheck false ":Window" start p =
      .error ⟨"A component can only have one <:Window> tag", start⟩ ∧
    ∀ b : Bool, metaTagCheck b ":Window" sq q =
      .error ⟨"<:Window> tags cannot be inside elements or blocks", sq⟩ := by
  constructor
  · have hdup' : ":Window" ∈ p.metaTags := by simpa using hdup
    simp [metaTagCheck, metaTags, hdup']
  · intro b
    have hnew' : ":Window" ∉ q.metaTags := by simpa using hnew
    simp [metaTagCheck, metaTags, hnew', hdepth]

/-- C8 witness: the claim at the two concrete states - a second `<:Window>` at
offset 10 after a registered first one, and a first `<:Window>` at offset 6
inside an open `div`. -/
theorem C8_meta_tag_errors_witness :
    metaTagCheck false ":Window" 10
        (Parser.mk [] 0 [Node.Fragment 0 none []] [":Window"] none none) =
      .error ⟨"A component can only have one <:Window> tag", 10⟩ ∧
    metaTagCheck false ":Window" 6
        (Parser.mk [] 0 [Node.Element 0 none "div" [] [], Node.Fragment 0 none []]
          [] none none) =
      .error ⟨"<:Window> tags cannot be inside elements or blocks", 6⟩ :=
  ⟨(C8_meta_tag_errors
      (Parser.mk [] 0 [Node.Fragment 0 none []] [":Window"] none none)
      (Parser.mk [] 0 [Node.Element 0 none "div" [] [], Node.Fragment 0 none []] [] none none)
      10 6 rfl rfl (by decide)).1,
   (C8_meta_tag_errors
      (Parser.mk [] 0 [Node.Fragment 0 none []] [":Window"] none none)
      (Parser.mk [] 0 [Node.Element 0 none "div" [] [], Node.Fragment 0 none []] [] none none)
      10 6 rfl rfl (by decide)).2 false⟩

/-- C9: a closing meta-tag form whose name was registered by a matching opening
meta-tag always raises a `SyntaxError`: the duplicate-registration check fires
on the closing occurrence before any close-specific handling (whichever branch
is taken, the result is an error).  Consequently a well-formed open/close
meta-tag pair can never complete: parsing `<:Window></:Window>` fails at the
closing tag (offset 9) with the duplicate-registration message. -/
theorem C9_meta_close_always_errors (p : Parser) (start : Nat)
    (hreg : p.metaTags.contains ":Window" = true) :
    isErrorResult (metaTagCheck true ":Window" start p) = true ∧
    parseTemplate id 99 ("<:Window></:Window>") =
      .error ⟨"A component can only have one <:Window> tag", 9⟩ := by
  constructor
  · simp only [metaTagCheck]
    rw [if_pos (show metaTags.contains ":Window" = true by decide), if_pos hreg]
    split
    · rfl
    · rfl
  · rfl

/-- C9 witness: the claim at the concrete state reached at `</:Window>` after
`<:Window>` registered the name and pushed the element. -/
theorem C9_meta_close_always_errors_witness :
    isErrorResult (metaTagCheck true ":Window" 9
      (Parser.mk ("<:Window></:Window>".toList) 18
        [Node.Element 0 none ":Window" [] [], Node.Fragment 0 none []]
        [":Window"] none none)) = true :=
  (C9_meta_close_always_errors
    (Parser.mk ("<:Window></:Window>".toList) 18
      [Node.Element 0 none ":Window" [] [], Node.Fragment 0 none []]
      [":Window"] none none) 9 rfl).1

/-- C10: the implied-close-on-open rule inspects only the immediate
top-of-stack parent and pops at most one element per opening tag: the stack is
either returned unchanged, or exactly its top is popped (whitespace-stripped,
`end` set to the new tag's start, appended to the children of the entry below);
in both cases every stack entry below the top - the `rest` - is unchanged, so
the step never cascades. -/
theorem C10_implied_close_one_pop (name : String) (start : Nat)
    (top below : Node) (rest : List Node) :
    impliedClose name start (top :: below :: rest) = top :: below :: rest ∨
    impliedClose name start (top :: below :: rest) =
      below.pushChild ((stripWhitespace top).setEnd start) :: rest := by
  simp only [impliedClose]
  cases h : top.name with
  | none => left; rfl
  | some pname =>
    by_cases hd : name ∈ disallowedContents pname
    · right; simp [hd]
    · left; simp [hd]
